import Mathlib

/-!
# Verification of the mediaclients authentication/token-source subsystem

This file gives a shallow embedding, in Lean 4, of the authentication core of
the `mediaclients` repository (packages `plexauth` / `plextv` and
`plex/internal/vault`), and proves properties of that embedding.

Modelling conventions:
* Go's `error` results become `Option E` (`none` = nil error) or `Except E A`.
* Since every method that touches shared state holds the corresponding mutex
  for the whole call, concurrent executions are equivalent to a serial
  interleaving; stateful methods are embedded as explicit state-passing
  functions, and sequences of calls as folds over those functions.
* Network and cryptographic effects (registrar calls, key generation, AEAD)
  are parameters of the embedded functions: a function receiving the outcome
  an effect would produce, exactly where the Go code performs the call.
-/

namespace Mediaclients

/-! ## The succeed-once guard (`untilSuccessful`, plexauth/plextv)

Go source (`until-successful.go`):
```
func (o *untilSuccessful) Do(f func() error) (err error) {
    if !o.done.Load() { err = o.doSlow(f) }
    return err
}
func (o *untilSuccessful) doSlow(f func() error) (err error) {
    o.lock.Lock(); defer o.lock.Unlock()
    if !o.done.Load() {
        defer func() { o.done.Store(err == nil) }()
        err = f()
    }
    return err
}
```
The state is the `done` flag. A call `Do(f)` is embedded as a function of the
current flag and of the outcome `f` would produce when executed
(`none` = success). It returns the new flag, the returned error, and whether
`f` was executed. -/

/-- One call of `untilSuccessful.Do`: `done` is the guard's flag, `f` the
outcome the argument would produce if executed (`none` = nil error).
Returns (new flag, returned error, whether the argument was executed). -/
def untilSuccessfulDo {E : Type} (done : Bool) (f : Option E) :
    Bool × Option E × Bool :=
  if done then (done, none, false)
  else (f.isNone, f, true)

/-- A serialized sequence of `Do` calls: returns the list of
(returned error, executed?) observations. -/
def runGuard {E : Type} : Bool → List (Option E) → List (Option E × Bool)
  | _, [] => []
  | done, f :: fs =>
    let r := untilSuccessfulDo done f
    (r.2.1, r.2.2) :: runGuard r.1 fs

theorem untilSuccessfulDo_done {E : Type} (f : Option E) :
    untilSuccessfulDo true f = (true, none, false) := rfl

theorem untilSuccessfulDo_success_sets_done {E : Type} {done : Bool}
    {f : Option E} (h : (untilSuccessfulDo done f).2.1 = none) :
    (untilSuccessfulDo done f).1 = true := by
  unfold untilSuccessfulDo at *
  by_cases hd : done <;> simp [hd] at *
  simp [Option.isNone_iff_eq_none, h]

theorem runGuard_done {E : Type} (fs : List (Option E)) :
    runGuard true fs = fs.map (fun _ => ((none : Option E), false)) := by
  induction fs with
  | nil => rfl
  | cons f fs ih => simp [runGuard, untilSuccessfulDo_done, ih]

/-- **C1** — The succeed-once guard of the device-bound flow: once a `Do` call
has returned nil, every later `Do` call returns nil without executing its
argument; and whenever `Do(f)` returns a non-nil error, the guard remains
not-done, so the next `Do` call executes its argument again. -/
theorem untilSuccessful_succeed_once {E : Type} (done : Bool) (f : Option E)
    (fs : List (Option E)) (g : Option E) :
    ((untilSuccessfulDo done f).2.1 = none →
      runGuard (untilSuccessfulDo done f).1 fs =
        fs.map (fun _ => ((none : Option E), false))) ∧
    (∀ e, (untilSuccessfulDo done f).2.1 = some e →
      (untilSuccessfulDo done f).1 = false ∧
      (untilSuccessfulDo (untilSuccessfulDo done f).1 g).2.2 = true) := by
  constructor
  · intro h
    rw [untilSuccessfulDo_success_sets_done h]
    exact runGuard_done fs
  · intro e he
    have hd : done = false := by
      by_contra hd
      simp only [Bool.not_eq_false] at hd
      rw [hd, untilSuccessfulDo_done] at he
      exact Option.noConfusion he
    subst hd
    unfold untilSuccessfulDo at *
    simp at he ⊢
    simp [he]

theorem untilSuccessful_succeed_once_witness :
    ((untilSuccessfulDo false (some "boom")).2.1 = none →
      runGuard (untilSuccessfulDo false (some "boom")).1 [none, some "x"] =
        [none, some "x"].map (fun _ => ((none : Option String), false))) ∧
    (∀ e, (untilSuccessfulDo false (some "boom")).2.1 = some e →
      (untilSuccessfulDo false (some "boom")).1 = false ∧
      (untilSuccessfulDo (untilSuccessfulDo false (some "boom")).1
          (some "again")).2.2 = true) :=
  untilSuccessful_succeed_once false (some "boom") [none, some "x"] (some "again")

/-! ## The caching token source (`plextv/tokensource.go`, `cachingTokenSource.Token`)

Go source:
```
func (s *cachingTokenSource) Token(ctx context.Context) (Token, error) {
    if s.tokenSource == nil { return "", ErrNoTokenSource }
    s.lock.Lock(); defer s.lock.Unlock()
    if s.token != nil && s.token.IsValid() { return *s.token, nil }
    token, err := s.tokenSource.Token(ctx)
    if err != nil { return "", err }
    s.token = &token
    return token, nil
}
```
The state is the cached token pointer (`Option Tok`). `valid` abstracts
`Token.IsValid` at call time; `inner` is the outcome the inner source would
produce if invoked. The whole call runs under the lock, so call sequences are
serialized. -/

/-- One call of `cachingTokenSource.Token` (`plextv` variant), for a source
whose inner token source is configured (not nil). Returns
(new cached token, result, whether the inner source was invoked). -/
def cachingToken {Tok E : Type} (valid : Tok → Bool) (inner : Except E Tok)
    (cache : Option Tok) : Option Tok × Except E Tok × Bool :=
  match cache with
  | some t =>
    if valid t then (some t, .ok t, false)
    else
      match inner with
      | .error e => (some t, .error e, true)
      | .ok t' => (some t', .ok t', true)
  | none =>
    match inner with
    | .error e => (none, .error e, true)
    | .ok t' => (some t', .ok t', true)

/-- A serialized round of `n` calls to `cachingTokenSource.Token` (the mutex
serializes concurrent callers), with the inner source producing the same
outcome on every invocation in the round. Returns the final cache and the
number of inner invocations during the round. -/
def cachingRound {Tok E : Type} (valid : Tok → Bool) (inner : Except E Tok) :
    Option Tok → Nat → Option Tok × Nat
  | cache, 0 => (cache, 0)
  | cache, n + 1 =>
    let r := cachingToken valid inner cache
    let rest := cachingRound valid inner r.1 n
    (rest.1, (if r.2.2 then 1 else 0) + rest.2)

/-- **C2** — For the caching token source: when a cached token is present and
valid, `Token` returns it without invoking the inner source; otherwise it
invokes the inner source once; if that call fails the cache is left without a
newly stored token and the error is returned (so the next call invokes the
inner source again); if it succeeds the token is stored and returned. -/
theorem cachingTokenSource_token_spec {Tok E : Type} (valid : Tok → Bool)
    (inner inner' : Except E Tok) (cache : Option Tok) :
    (∀ t, cache = some t → valid t = true →
      cachingToken valid inner cache = (some t, .ok t, false)) ∧
    ((∀ t, cache = some t → valid t = false) →
      ((cachingToken valid inner cache).2.2 = true ∧
       (∀ e, inner = .error e →
          (cachingToken valid inner cache).2.1 = .error e ∧
          (cachingToken valid inner cache).1 = cache ∧
          (cachingToken valid inner' (cachingToken valid inner cache).1).2.2
            = true) ∧
       (∀ t', inner = .ok t' →
          (cachingToken valid inner cache).2.1 = .ok t' ∧
          (cachingToken valid inner cache).1 = some t'))) := by
  constructor
  · intro t hc hv
    subst hc
    simp [cachingToken, hv]
  · intro hinv
    refine ⟨?_, ?_, ?_⟩
    · cases cache with
      | none => cases inner <;> simp [cachingToken]
      | some t =>
        have hv := hinv t rfl
        cases inner <;> simp [cachingToken, hv]
    · intro e he
      subst he
      cases cache with
      | none => cases inner' <;> simp [cachingToken]
      | some t =>
        have hv := hinv t rfl
        cases inner' <;> simp [cachingToken, hv]
    · intro t' ht
      subst ht
      cases cache with
      | none => simp [cachingToken]
      | some t =>
        have hv := hinv t rfl
        simp [cachingToken, hv]

theorem cachingTokenSource_token_spec_witness :
    (∀ t, (some 7 : Option Nat) = some t → (fun n => n ≠ 0 : Nat → Bool) t = true →
      cachingToken (fun n => n ≠ 0) (.ok 9 : Except String Nat) (some 7)
        = (some t, .ok t, false)) ∧
    ((∀ t, (some 7 : Option Nat) = some t → (fun n => n ≠ 0 : Nat → Bool) t = false) →
      ((cachingToken (fun n => n ≠ 0) (.ok 9 : Except String Nat) (some 7)).2.2 = true ∧
       (∀ e, (.ok 9 : Except String Nat) = .error e →
          (cachingToken (fun n => n ≠ 0) (.ok 9 : Except String Nat) (some 7)).2.1
            = .error e ∧
          (cachingToken (fun n => n ≠ 0) (.ok 9 : Except String Nat) (some 7)).1
            = some 7 ∧
          (cachingToken (fun n => n ≠ 0) (.error "down" : Except String Nat)
            (cachingToken (fun n => n ≠ 0) (.ok 9 : Except String Nat)
              (some 7)).1).2.2 = true) ∧
       (∀ t', (.ok 9 : Except String Nat) = .ok t' →
          (cachingToken (fun n => n ≠ 0) (.ok 9 : Except String Nat) (some 7)).2.1
            = .ok t' ∧
          (cachingToken (fun n => n ≠ 0) (.ok 9 : Except String Nat) (some 7)).1
            = some t'))) :=
  cachingTokenSource_token_spec (fun n => n ≠ 0) (.ok 9) (.error "down") (some 7)

/-- **C10 counterexample** — with an always-failing inner source, a round of 2
serialized concurrent calls triggers 2 inner invocations, not the single
invocation the claim asserts for a failing round. -/
theorem cachingTokenSource_single_flight_counterexample :
    ¬ ((cachingRound (fun (_ : Unit) => true) (.error ()) none 2).2 = 1) := by
  decide

/-- **C10 amended** — the lock serializes calls, so at most one inner fetch is
in progress at a time; a round of `n ≥ 1` serialized calls triggers exactly 1
inner invocation when the fetch succeeds with a valid token, and the token is
cached thereafter (a later round triggers 0 invocations); but when the inner
source fails, each of the `n` callers of the round triggers its own inner
invocation (`n` per round, not 1), and the next round retries. -/
theorem cachingTokenSource_single_flight_amended {Tok E : Type}
    (valid : Tok → Bool) (t : Tok) (e : E) (n : Nat) (hn : 1 ≤ n)
    (hv : valid t = true) :
    (cachingRound valid (.ok t : Except E Tok) none n).2 = 1 ∧
    (cachingRound valid (.ok t : Except E Tok) none n).1 = some t ∧
    (∀ m, (cachingRound valid (.ok t : Except E Tok) (some t) m).2 = 0) ∧
    (cachingRound valid (.error e : Except E Tok) none n).2 = n := by
  have hcached : ∀ (m : Nat) (inner : Except E Tok),
      (cachingRound valid inner (some t) m) = (some t, 0) := by
    intro m inner
    induction m with
    | zero => rfl
    | succ m ih => simp [cachingRound, cachingToken, hv, ih]
  have hfail : ∀ m, (cachingRound valid (.error e) (none : Option Tok) m)
      = (none, m) := by
    intro m
    induction m with
    | zero => rfl
    | succ m ih => simp [cachingRound, cachingToken, ih]; omega
  obtain ⟨k, rfl⟩ : ∃ k, n = k + 1 := ⟨n - 1, by omega⟩
  refine ⟨?_, ?_, ?_, ?_⟩
  · simp [cachingRound, cachingToken, hcached]
  · simp [cachingRound, cachingToken, hcached]
  · intro m
    simp [hcached]
  · simp [hfail]

theorem cachingTokenSource_single_flight_amended_witness :
    (cachingRound (fun (_ : Unit) => true) (.ok () : Except String Unit)
      none 3).2 = 1 ∧
    (cachingRound (fun (_ : Unit) => true) (.ok () : Except String Unit)
      none 3).1 = some () ∧
    (∀ m, (cachingRound (fun (_ : Unit) => true) (.ok () : Except String Unit)
      (some ()) m).2 = 0) ∧
    (cachingRound (fun (_ : Unit) => true) (.error "down" : Except String Unit)
      none 3).2 = 3 :=
  cachingTokenSource_single_flight_amended (fun _ => true) () "down" 3
    (by decide) (by decide)

/-! ## The secure data store and the device-bound initialize
(`plextv/tokensource.go`: `jwtDataStore.Load`, `jwtTokenSourceInit`)

Go source of `jwtDataStore.Load`:
```
func (s *jwtDataStore) Load() (JWTSecureData, error) {
    data, err := s.vault.Load()
    if err != nil { return JWTSecureData{}, err }
    if data.ClientID != s.clientID { err = ErrInvalidClientID }
    return data, err
}
```
`initialize` loads via the store, returns nil on success; on
`ErrInvalidClientID` or `os.ErrNotExist` falls through to registration, key
generation/upload, and `Save`; any other load error is returned. The outcomes
of the registrar call, of `GenerateAndUploadPublicKey` and of `Save` are
parameters of the embedded function, and the embedding records which of those
effects were performed. -/

/-- `JWTSecureData`: the persisted key material (key ID, client ID, private
key). The ed25519 private key bytes are modelled as a `String`. -/
structure JWTSecureData where
  keyID : String
  clientID : String
  privateKey : String
  deriving DecidableEq, Repr

/-- Errors a `secureDataVault.Load` can produce, as `initialize`
distinguishes them: `ErrInvalidClientID`, `os.ErrNotExist`, anything else. -/
inductive StoreError where
  | invalidClientID
  | notExist
  | other (msg : String)
  deriving DecidableEq, Repr

/-- `jwtDataStore.Load`: wraps the underlying vault result (the parameter
`vaultResult`). On an underlying error it returns the zero record and that
error; on success it additionally returns `ErrInvalidClientID` (together with
the loaded record) when the record's client ID differs from the configured
one. -/
def jwtDataStore.Load (clientID : String)
    (vaultResult : Except StoreError JWTSecureData) :
    JWTSecureData × Option StoreError :=
  match vaultResult with
  | .error e => (⟨"", "", ""⟩, some e)
  | .ok data =>
    if data.clientID ≠ clientID then (data, some .invalidClientID)
    else (data, none)

/-- Errors of `jwtTokenSourceInit`, mirroring its `fmt.Errorf`
wrappers. -/
inductive InitError where
  | loadFailed (msg : String)
  | noTokenSource
  | registrarFailed (msg : String)
  | publishFailed (msg : String)
  | saveFailed (msg : String)
  deriving DecidableEq, Repr

/-- Result of one execution of `jwtTokenSourceInit`: the final
`s.secureData`, the returned error, and a trace of the performed effects
(was the registrar invoked, was `GenerateAndUploadPublicKey` invoked, and the
record passed to `vault.Save` when `Save` was invoked). -/
structure InitResult where
  secureData : JWTSecureData
  error : Option InitError
  registrarInvoked : Bool
  uploadInvoked : Bool
  saved : Option JWTSecureData
  deriving DecidableEq, Repr

/-- `jwtTokenSourceInit`. Parameters supply the outcome of each
external effect at the point the Go code performs it: `loadRes` is what
`s.vault.Load()` returns, `hasRegistrar` whether `s.registrar` is non-nil,
`registrarRes` what `s.registrar.Token(ctx)` would return, `genRes` what
`GenerateAndUploadPublicKey` would return (private key, key ID), `saveErr`
what `s.vault.Save` would return. -/
def jwtTokenSourceInit (cfgClientID : String)
    (loadRes : JWTSecureData × Option StoreError)
    (hasRegistrar : Bool) (registrarRes : Except String String)
    (genRes : Except String (String × String)) (saveErr : Option String) :
    InitResult :=
  -- s.secureData, err = s.vault.Load()
  let data := loadRes.1
  match loadRes.2 with
  | none =>
    -- valid secure data found
    ⟨data, none, false, false, none⟩
  | some .invalidClientID => initFrom data
  | some .notExist => initFrom data
  | some (.other m) => ⟨data, some (.loadFailed m), false, false, none⟩
where
  /-- steps 2-5: register, generate/upload keypair, save. -/
  initFrom (data : JWTSecureData) : InitResult :=
    if ¬ hasRegistrar then ⟨data, some .noTokenSource, false, false, none⟩
    else
      match registrarRes with
      | .error m => ⟨data, some (.registrarFailed m), true, false, none⟩
      | .ok _token =>
        -- s.secureData.ClientID = s.config.ClientID
        let data := { data with clientID := cfgClientID }
        match genRes with
        | .error m =>
          -- on error, Go assigns the zero returns to PrivateKey and KeyID
          ⟨{ data with privateKey := "", keyID := "" },
            some (.publishFailed m), true, true, none⟩
        | .ok (pk, kid) =>
          let data := { data with privateKey := pk, keyID := kid }
          match saveErr with
          | some m => ⟨data, some (.saveFailed m), true, true, some data⟩
          | none => ⟨data, none, true, true, some data⟩

/-- **C3** — a loaded record whose client ID differs from the configured one
makes `jwtDataStore.Load` return `ErrInvalidClientID`; `initialize` then does
not use the loaded key material but re-registers, generates and uploads a new
keypair, and saves a record whose client ID equals the configured one. -/
theorem jwtDataStore_foreign_clientID (cfgClientID : String)
    (data : JWTSecureData) (hne : data.clientID ≠ cfgClientID)
    (tok pk kid : String) :
    jwtDataStore.Load cfgClientID (.ok data) = (data, some .invalidClientID) ∧
    (jwtTokenSourceInit cfgClientID
        (jwtDataStore.Load cfgClientID (.ok data)) true (.ok tok)
        (.ok (pk, kid)) none) =
      ⟨⟨kid, cfgClientID, pk⟩, none, true, true,
        some ⟨kid, cfgClientID, pk⟩⟩ := by
  constructor
  · simp [jwtDataStore.Load, hne]
  · simp [jwtDataStore.Load, hne, jwtTokenSourceInit,
      jwtTokenSourceInit.initFrom]

theorem jwtDataStore_foreign_clientID_witness :
    jwtDataStore.Load "B" (.ok ⟨"kid0", "A", "pk0"⟩)
      = (⟨"kid0", "A", "pk0"⟩, some .invalidClientID) ∧
    (jwtTokenSourceInit "B"
        (jwtDataStore.Load "B" (.ok ⟨"kid0", "A", "pk0"⟩)) true (.ok "tok")
        (.ok ("pk1", "kid1")) none) =
      ⟨⟨"kid1", "B", "pk1"⟩, none, true, true, some ⟨"kid1", "B", "pk1"⟩⟩ :=
  jwtDataStore_foreign_clientID "B" ⟨"kid0", "A", "pk0"⟩ (by decide)
    "tok" "pk1" "kid1"

/-- **C4** — `Save` is invoked only after `GenerateAndUploadPublicKey`
succeeded: when the registrar call fails, or the key generation/upload fails,
`initialize` returns the error and nothing is persisted; and when a valid
record is loaded, registration, key upload and `Save` are all skipped. -/
theorem jwtTokenSource_initialize_save_discipline (cfgClientID : String)
    (loadErr : Option StoreError) (data : JWTSecureData)
    (registrarRes : Except String String)
    (genRes : Except String (String × String)) (saveErr : Option String) :
    (∀ m, loadErr = some .invalidClientID ∨ loadErr = some .notExist →
      registrarRes = .error m →
      (jwtTokenSourceInit cfgClientID (data, loadErr) true
        registrarRes genRes saveErr) =
        ⟨data, some (.registrarFailed m), true, false, none⟩) ∧
    (∀ m tok, loadErr = some .invalidClientID ∨ loadErr = some .notExist →
      registrarRes = .ok tok → genRes = .error m →
      (jwtTokenSourceInit cfgClientID (data, loadErr) true
        registrarRes genRes saveErr) =
        ⟨{ data with clientID := cfgClientID, privateKey := "", keyID := "" },
          some (.publishFailed m), true, true, none⟩) ∧
    (loadErr = none →
      (jwtTokenSourceInit cfgClientID (data, loadErr) true
        registrarRes genRes saveErr) = ⟨data, none, false, false, none⟩) ∧
    ((jwtTokenSourceInit cfgClientID (data, loadErr) true
        registrarRes genRes saveErr).saved.isSome = true →
      ∃ pk kid, genRes = .ok (pk, kid)) := by
  refine ⟨?_, ?_, ?_, ?_⟩
  · rintro m (rfl | rfl) rfl <;>
      simp [jwtTokenSourceInit, jwtTokenSourceInit.initFrom]
  · rintro m tok (rfl | rfl) rfl rfl <;>
      simp [jwtTokenSourceInit, jwtTokenSourceInit.initFrom]
  · rintro rfl
    simp [jwtTokenSourceInit]
  · intro hsaved
    rcases genRes with m | ⟨pk, kid⟩
    · exfalso
      rcases loadErr with _ | e
      · simp [jwtTokenSourceInit] at hsaved
      · rcases e with _ | _ | m' <;>
          rcases registrarRes with m'' | tok <;>
          simp [jwtTokenSourceInit,
            jwtTokenSourceInit.initFrom] at hsaved
    · exact ⟨pk, kid, rfl⟩

theorem jwtTokenSource_initialize_save_discipline_witness :
    (jwtTokenSourceInit "B" (⟨"", "", ""⟩, some .notExist) true
        (.error "net down") (.ok ("pk", "kid")) none) =
      ⟨⟨"", "", ""⟩, some (.registrarFailed "net down"), true, false, none⟩ ∧
    (jwtTokenSourceInit "B" (⟨"", "", ""⟩, some .notExist) true
        (.ok "tok") (.error "upload rejected") none) =
      ⟨⟨"", "B", ""⟩, some (.publishFailed "upload rejected"),
        true, true, none⟩ ∧
    (jwtTokenSourceInit "B" (⟨"kid", "B", "pk"⟩, none) true
        (.ok "tok") (.ok ("pk2", "kid2")) none) =
      ⟨⟨"kid", "B", "pk"⟩, none, false, false, none⟩ := by
  have h1 := jwtTokenSource_initialize_save_discipline "B" (some .notExist)
    ⟨"", "", ""⟩ (.error "net down") (.ok ("pk", "kid")) none
  have h2 := jwtTokenSource_initialize_save_discipline "B" (some .notExist)
    ⟨"", "", ""⟩ (.ok "tok") (.error "upload rejected") none
  have h3 := jwtTokenSource_initialize_save_discipline "B" none
    ⟨"kid", "B", "pk"⟩ (.ok "tok") (.ok ("pk2", "kid2")) none
  refine ⟨h1.1 "net down" (.inr rfl) rfl, ?_, h3.2.2.1 rfl⟩
  exact h2.2.1 "upload rejected" "tok" (.inr rfl) rfl rfl

/-! ## The vault (`plex/internal/vault/vault.go`)

`Save` serializes the payload (JSON), generates a fresh random salt, derives
a 256-bit key via HKDF-SHA256 from (passphrase, salt), encrypts with
AES-256-GCM using a fresh random nonce prepended to the ciphertext, and
writes `{version, salt, data}`. `Load` reads the record, rejects unknown
versions, re-derives the key from the stored salt, decrypts (any AEAD
failure becomes `ErrInvalidKey` wrapping the cause) and decodes.

Modelling: byte strings are `List Nat`. The AEAD cipher and the payload
serializer are parameters, packaged with the correctness properties the Go
code relies on (AES-GCM round-trip; AEAD authentication rejecting a wrong
equal-length key; JSON round-trip). The random salt and nonce are inputs of
`vaultSave` (Go draws them from `crypto/rand`). The on-disk record is kept in
its parsed form: Go's `json.MarshalIndent`/`json.Unmarshal` of the record
itself round-trips, and the "unrecognized file format" paths fire only on a
hand-corrupted file, which the claims do not touch. The key-derivation
`io.ReadFull` error path of `deriveEncryptionKey` cannot fire for HKDF and is
omitted. -/

/-- Byte strings. -/
abbrev Bytes := List Nat

/-- AES-GCM nonce size (12 bytes). -/
def nonceSize : Nat := 12

/-- An AEAD cipher, with the two properties of AES-GCM the vault relies on:
decryption inverts encryption under the same key, and authentication fails
under a different key of the same length (keys here are always 32-byte
HKDF outputs). -/
structure AEADScheme where
  sealData : Bytes → Bytes → Bytes → Bytes
  openData : Bytes → Bytes → Bytes → Option Bytes
  open_seal : ∀ k n m, openData k n (sealData k n m) = some m
  wrong_key : ∀ k k' n n' m, k.length = k'.length → k ≠ k' →
    openData k' n' (sealData k n m) = none

/-- A payload serializer (JSON in the Go code), with its round-trip
property. -/
structure Serializer (T : Type) where
  encode : T → Bytes
  decode : Bytes → Option T
  decode_encode : ∀ t, decode (encode t) = some t

/-- The on-disk vault record `content{Salt, Data, Version}`. -/
structure VaultContent where
  salt : Bytes
  data : Bytes
  version : Int
  deriving DecidableEq, Repr

/-- The error kinds of `Vault.Load`, one per `return` site. -/
inductive VaultError where
  | notExist
  | unrecognizedFormat (msg : String)
  | unsupportedVersion (v : Int)
  | invalidKey (cause : String)
  | decodeData (msg : String)
  deriving DecidableEq, Repr

/-- `encryptAES`: seal with a fresh nonce, prepending the nonce to the
ciphertext (`aesGCM.Seal(nonce, nonce, data, nil)`). -/
def encryptAES (A : AEADScheme) (key nonce data : Bytes) : Bytes :=
  nonce ++ A.sealData key nonce data

/-- `decryptAES`: split off the nonce and open; a too-short input is the
"invalid ciphertext" error, an authentication failure is the AEAD's
"message authentication failed" error. -/
def decryptAES (A : AEADScheme) (key data : Bytes) : Except String Bytes :=
  if data.length < nonceSize then .error "invalid ciphertext"
  else
    match A.openData key (data.take nonceSize) (data.drop nonceSize) with
    | none => .error "message authentication failed"
    | some m => .ok m

/-- `Vault.Save` (success path): fresh salt and nonce are inputs; returns the
written record and the new in-memory cache. `dk` is `deriveEncryptionKey`
(HKDF-SHA256 of (passphrase, salt)). -/
def vaultSave {T : Type} (A : AEADScheme) (S : Serializer T)
    (dk : String → Bytes → Bytes) (passphrase : String) (salt nonce : Bytes)
    (t : T) : VaultContent × Option T :=
  ({ version := 1, salt := salt,
     data := encryptAES A (dk passphrase salt) nonce (S.encode t) }, some t)

/-- `Vault.Load`: return the cache if present; else read the file (`none` =
missing, mapped to `os.ErrNotExist`), check the version, re-derive the key
from the stored salt, decrypt (failure becomes `ErrInvalidKey` wrapping the
cause) and decode. Returns the result and the new cache. -/
def vaultLoad {T : Type} (A : AEADScheme) (S : Serializer T)
    (dk : String → Bytes → Bytes) (passphrase : String)
    (cache : Option T) (file : Option VaultContent) :
    Except VaultError T × Option T :=
  match cache with
  | some t => (.ok t, some t)
  | none =>
    match file with
    | none => (.error .notExist, none)
    | some record =>
      if record.version = 1 then
        match decryptAES A (dk passphrase record.salt) record.data with
        | .error cause => (.error (.invalidKey cause), none)
        | .ok clear =>
          match S.decode clear with
          | none => (.error (.decodeData "decode data"), none)
          | some t => (.ok t, some t)
      else (.error (.unsupportedVersion record.version), none)

theorem decryptAES_encryptAES (A : AEADScheme) (key nonce data : Bytes)
    (hn : nonce.length = nonceSize) :
    decryptAES A key (encryptAES A key nonce data) = .ok data := by
  unfold decryptAES encryptAES
  rw [if_neg, ← hn, List.take_left, List.drop_left, A.open_seal]
  simp [← hn]

/-- **C5** — vault round-trip: `Save(P)` with passphrase `Q` followed by
`Load()` over the resulting file with the same passphrase `Q` (fresh vault,
empty cache) succeeds and returns `P`, for every payload and passphrase. -/
theorem vault_roundtrip {T : Type} (A : AEADScheme) (S : Serializer T)
    (dk : String → Bytes → Bytes) (passphrase : String) (salt nonce : Bytes)
    (t : T) (hn : nonce.length = nonceSize) :
    vaultLoad A S dk passphrase none
      (some (vaultSave A S dk passphrase salt nonce t).1) = (.ok t, some t) := by
  unfold vaultLoad vaultSave
  simp only
  rw [if_pos trivial, decryptAES_encryptAES A _ _ _ hn]
  simp [S.decode_encode]

/-- **C6** — `Vault.Load` error taxonomy: an absent file yields the distinct
not-found condition (never a decryption error); an existing current-version
file whose ciphertext fails AEAD authentication yields `ErrInvalidKey`
wrapping the cause (never a decoded payload, never a generic I/O or JSON
error); in particular loading a saved file with a different passphrase
(distinct derived keys) always fails with the decryption-failure error. -/
theorem vault_load_error_taxonomy {T : Type} (A : AEADScheme)
    (S : Serializer T) (dk : String → Bytes → Bytes) (p p' : String)
    (salt nonce : Bytes) (t : T) (record : VaultContent)
    (hn : nonce.length = nonceSize)
    (hkeylen : (dk p salt).length = (dk p' salt).length)
    (hkeyne : dk p salt ≠ dk p' salt) :
    vaultLoad A S dk p none none = (.error .notExist, none) ∧
    (∀ cause, record.version = 1 →
      decryptAES A (dk p record.salt) record.data = .error cause →
      vaultLoad A S dk p none (some record)
        = (.error (.invalidKey cause), none)) ∧
    vaultLoad A S dk p' none (some (vaultSave A S dk p salt nonce t).1)
      = (.error (.invalidKey "message authentication failed"), none) := by
  refine ⟨rfl, ?_, ?_⟩
  · intro cause hv hd
    unfold vaultLoad
    simp only
    rw [if_pos hv, hd]
  · unfold vaultLoad vaultSave
    simp only
    rw [if_pos trivial]
    unfold decryptAES encryptAES
    rw [if_neg, ← hn, List.take_left, List.drop_left,
      A.wrong_key _ _ _ _ _ hkeylen hkeyne]
    simp [← hn]

/-- A concrete AEAD used to instantiate the vault theorems: sealing prepends
the 32-byte key, opening checks and strips it. It satisfies the two AEAD
properties the vault relies on. -/
def prefixAEAD : AEADScheme where
  sealData k _n m := k ++ m
  openData k _n c :=
    if c.take k.length = k then some (c.drop k.length) else none
  open_seal := by
    intro k n m
    simp [List.take_left, List.drop_left]
  wrong_key := by
    intro k k' n n' m hlen hne
    have ht : (k ++ m).take k'.length = k := by
      rw [← hlen, List.take_left]
    simp only [ht]
    exact if_neg hne

/-- A concrete payload serializer for `Nat` payloads (a one-byte JSON
stand-in), with the round-trip property. -/
def natSerializer : Serializer Nat where
  encode n := [n]
  decode b := match b with | [n] => some n | _ => none
  decode_encode := by intro t; rfl

/-- A concrete key-derivation stand-in for the witnesses: one byte per
passphrase length. -/
def dkLen : String → Bytes → Bytes := fun p _s => [p.length]

theorem vault_roundtrip_witness :
    vaultLoad prefixAEAD natSerializer dkLen "pw" none
      (some (vaultSave prefixAEAD natSerializer dkLen "pw" [3, 1, 4]
        (List.replicate 12 0) 42).1) = (.ok 42, some 42) :=
  vault_roundtrip prefixAEAD natSerializer dkLen "pw" [3, 1, 4]
    (List.replicate 12 0) 42 (by decide)

theorem vault_load_error_taxonomy_witness :
    vaultLoad prefixAEAD natSerializer dkLen "a" none none
      = (.error .notExist, none) ∧
    (∀ cause, (⟨[], [], 1⟩ : VaultContent).version = 1 →
      decryptAES prefixAEAD (dkLen "a" (⟨[], [], 1⟩ : VaultContent).salt)
        (⟨[], [], 1⟩ : VaultContent).data = .error cause →
      vaultLoad prefixAEAD natSerializer dkLen "a" none (some ⟨[], [], 1⟩)
        = (.error (.invalidKey cause), none)) ∧
    vaultLoad prefixAEAD natSerializer dkLen "xyz" none
      (some (vaultSave prefixAEAD natSerializer dkLen "a" [7]
        (List.replicate 12 0) 42).1)
      = (.error (.invalidKey "message authentication failed"), none) :=
  vault_load_error_taxonomy prefixAEAD natSerializer dkLen "a" "xyz" [7]
    (List.replicate 12 0) 42 ⟨[], [], 1⟩ (by decide) (by decide) (by decide)

/-! ## The server token resolver
(`plexauth/tokensource.go`: `pmsTokenSource.Token`; `Config.MediaServers`)

`pmsTokenSource.Token` obtains a credential from its inner token source,
fetches the registered-device directory (`Config.MediaServers`, which first
rejects invalid tokens, then fetches `RegisteredDevices` and removes every
entry whose `Product` is not "Plex Media Server"), and returns the token of
the first server whose name equals the requested name, or the first server
at all when the requested name is empty; if none matches it fails with the
"media server not found" error. -/

/-- A `RegisteredDevice` directory entry (the fields the resolver reads). -/
structure RegisteredDevice where
  name : String
  product : String
  clientID : String
  token : String
  deriving DecidableEq, Repr

/-- `Config.MediaServers`' filter: `slices.DeleteFunc` removing every device
whose `Product` is not "Plex Media Server". -/
def mediaServersOf (devices : List RegisteredDevice) : List RegisteredDevice :=
  devices.filter (fun d => d.product == "Plex Media Server")

/-- The error kinds of `pmsTokenSource.Token`, mirroring its wrappers. -/
inductive ResolverError where
  | tokenFailed (msg : String)
  | invalidToken
  | devicesFailed (msg : String)
  | serverNotFound (name : String)
  deriving DecidableEq, Repr

/-- The resolver's matching loop: the first device whose name equals the
requested name, any device when the requested name is empty. -/
def findMediaServer (pmsName : String) :
    List RegisteredDevice → Option RegisteredDevice
  | [] => none
  | d :: ds =>
    if d.name == pmsName || pmsName == "" then some d
    else findMediaServer pmsName ds

/-- `pmsTokenSource.Token`: `innerRes` is the inner token source's outcome,
`tokenValid` abstracts `token.IsValid()` inside `Config.MediaServers`, and
`fetchRes` the outcome of the `RegisteredDevices` directory fetch. -/
def pmsTokenSourceToken (pmsName : String) (innerRes : Except String String)
    (tokenValid : Bool)
    (fetchRes : Except String (List RegisteredDevice)) :
    Except ResolverError String :=
  match innerRes with
  | .error m => .error (.tokenFailed m)
  | .ok _token =>
    if ¬ tokenValid then .error .invalidToken
    else
      match fetchRes with
      | .error m => .error (.devicesFailed m)
      | .ok devices =>
        match findMediaServer pmsName (mediaServersOf devices) with
        | some server => .ok server.token
        | none => .error (.serverNotFound pmsName)

/-- The two-media-server directory of the claim's scenario, together with a
non-media-server entry (which the product filter must remove, even though its
name matches the "missing" request). -/
def scenarioDirectory : List RegisteredDevice :=
  [⟨"missing", "Other Product", "c3", "t3"⟩,
   ⟨"srv1", "Plex Media Server", "c1", "t1"⟩,
   ⟨"srv2", "Plex Media Server", "c2", "t2"⟩]

/-- **C7** — the resolver filters the directory to media-server entries and
matches by name: with media-server entries srv1/t1 then srv2/t2, requesting
"srv2" yields "t2"; requesting "" yields "t1" (the first match); requesting
"missing" (which matches only a non-media-server entry) yields the distinct
server-not-found error. -/
theorem pmsTokenSource_scenario :
    pmsTokenSourceToken "srv2" (.ok "tok") true (.ok scenarioDirectory)
      = .ok "t2" ∧
    pmsTokenSourceToken "" (.ok "tok") true (.ok scenarioDirectory)
      = .ok "t1" ∧
    pmsTokenSourceToken "missing" (.ok "tok") true (.ok scenarioDirectory)
      = .error (.serverNotFound "missing") := by
  refine ⟨?_, ?_, ?_⟩ <;> rfl

/-! ## Token validity (`plexauth/token.go`: `Token.IsLegacy`, `Token.IsValid`)

Go source:
```
func (t Token) IsLegacy() bool { return len(t) == 20 }
func (t Token) IsValid() bool {
    if t.IsLegacy() { return true }
    tok, err := jwt.Parse([]byte(t), jwt.WithVerify(false))
    if err != nil { return false }
    exp, ok := tok.Expiration()
    if !ok { return false }
    return exp.After(time.Now())
}
```
A token is modelled by its raw string, by the structural outcome of parsing
it as a JWT (the claims, of which only the expiry matters here), and by a
signature bit that records whether the token's signature would verify —
`jwt.Parse` is called `WithVerify(false)`, so validity never consults it.
Parsing validates the expiry claim against the clock with an acceptable skew
(the `plextv` variant passes `jwt.WithAcceptableSkew(time.Minute)`); the
result is time-dependent, so the clock `now` is a parameter: `IsValid` is
computed from the token alone and the clock, with no network call. -/

/-- The JWT claims that token validation reads: the expiry (seconds). -/
structure JWTClaims where
  exp : Option Int
  deriving DecidableEq, Repr

/-- A token: raw string, structural parse outcome, and whether its signature
would verify (never consulted by validation). -/
structure TokenModel where
  raw : String
  claims : Option JWTClaims
  sigOK : Bool
  deriving DecidableEq, Repr

/-- The `plextv` clock-skew tolerance (`clockSkewTolerance = time.Minute`),
in seconds. -/
def clockSkewTolerance : Int := 60

/-- `Token.IsLegacy`: a 20-character string. -/
def tokenIsLegacy (t : TokenModel) : Bool := t.raw.length == 20

/-- `jwt.Parse(..., WithVerify(false), WithAcceptableSkew(skew))`: structural
parse, then expiry validation against the clock with the acceptable skew;
the signature is not verified. -/
def jwtParse (skew now : Int) (t : TokenModel) : Option JWTClaims :=
  match t.claims with
  | none => none
  | some c =>
    match c.exp with
    | some e => if e + skew < now then none else some c
    | none => some c

/-- `Token.IsValid`: legacy tokens are always valid; otherwise the token must
parse and its expiry (`exp.After(time.Now())`) must not have passed. -/
def tokenIsValid (skew now : Int) (t : TokenModel) : Bool :=
  if tokenIsLegacy t then true
  else
    match jwtParse skew now t with
    | none => false
    | some c =>
      match c.exp with
      | some e => decide (now < e)
      | none => false

/-- The claim's legacy token `"12345678901234567890"`. -/
def legacyToken : TokenModel := ⟨"12345678901234567890", none, false⟩

/-- **C8** — token validity is computed locally from the token and the clock:
every 20-character token (in particular `"12345678901234567890"`) is legacy
and valid at every clock and skew; a signed token whose expiry lies at or
before the clock (e.g. one hour ago) is invalid; a signed unexpired token
(with non-negative skew) is valid; and validity never depends on the
signature bit — the signature is never verified. -/
theorem token_isValid_local (skew now e : Int) (t : TokenModel)
    (c : JWTClaims) (hnl : ¬ t.raw.length = 20) (hc : t.claims = some c)
    (he : c.exp = some e) :
    (∀ u : TokenModel, u.raw.length = 20 →
      tokenIsLegacy u = true ∧ tokenIsValid skew now u = true) ∧
    (tokenIsLegacy legacyToken = true ∧
      tokenIsValid skew now legacyToken = true) ∧
    (e ≤ now → tokenIsValid skew now t = false) ∧
    (0 ≤ skew → now < e → tokenIsValid skew now t = true) ∧
    (∀ b, tokenIsValid skew now { t with sigOK := b }
      = tokenIsValid skew now t) := by
  have hlegacy : ∀ u : TokenModel, u.raw.length = 20 →
      tokenIsLegacy u = true ∧ tokenIsValid skew now u = true := by
    intro u hu
    have hl : tokenIsLegacy u = true := by
      simp [tokenIsLegacy, hu]
    exact ⟨hl, by simp [tokenIsValid, hl]⟩
  refine ⟨hlegacy, hlegacy legacyToken (by decide), ?_, ?_, ?_⟩
  · intro hle
    have hl : tokenIsLegacy t = false := by
      simp [tokenIsLegacy, hnl]
    by_cases hs : e + skew < now
    · simp [tokenIsValid, hl, jwtParse, hc, he, hs]
    · simp [tokenIsValid, hl, jwtParse, hc, he, hs]
      omega
  · intro hsk hnow
    have hl : tokenIsLegacy t = false := by
      simp [tokenIsLegacy, hnl]
    have hs : ¬ e + skew < now := by omega
    simp [tokenIsValid, hl, jwtParse, hc, he, hs, hnow]
  · intro b
    simp [tokenIsValid, tokenIsLegacy, jwtParse, hc]

theorem token_isValid_local_witness :
    (∀ u : TokenModel, u.raw.length = 20 →
      tokenIsLegacy u = true ∧ tokenIsValid clockSkewTolerance 0 u = true) ∧
    (tokenIsLegacy legacyToken = true ∧
      tokenIsValid clockSkewTolerance 0 legacyToken = true) ∧
    ((-3600 : Int) ≤ 0 →
      tokenIsValid clockSkewTolerance 0 ⟨"jwt", some ⟨some (-3600)⟩, true⟩
        = false) ∧
    ((0 : Int) ≤ clockSkewTolerance → (0 : Int) < -3600 →
      tokenIsValid clockSkewTolerance 0 ⟨"jwt", some ⟨some (-3600)⟩, true⟩
        = true) ∧
    (∀ b, tokenIsValid clockSkewTolerance 0
        { (⟨"jwt", some ⟨some (-3600)⟩, true⟩ : TokenModel) with sigOK := b }
      = tokenIsValid clockSkewTolerance 0 ⟨"jwt", some ⟨some (-3600)⟩, true⟩) :=
  token_isValid_local clockSkewTolerance 0 (-3600)
    ⟨"jwt", some ⟨some (-3600)⟩, true⟩ ⟨some (-3600)⟩ (by decide) rfl rfl

/-! ## PIN registration (`Config.RegisterWithPIN`)

Go source:
```
func (c Config) RegisterWithPIN(ctx, callback, pollInterval) (Token, error) {
    pinResponse, pinURL, err := c.PINRequest(ctx)
    if err != nil { return "", fmt.Errorf("pin: %w", err) }
    callback(pinResponse, pinURL)
    for {
        if token, _, err = c.ValidatePIN(ctx, pinResponse.Id); err == nil && token.IsValid() {
            return token, nil
        }
        select {
        case <-ctx.Done():         return "", ctx.Err()
        case <-time.After(cmp.Or(pollInterval, 15*time.Second)):
        }
    }
}
```
Discrete time model (milliseconds): the context carries a deadline `d`; a
poll is instantaneous and polls happen at multiples of the effective
interval; in the `select`, `ctx.Done()` fires at time `d` and the timer at
the current time plus the interval, the earlier one winning. `poll n` is the
outcome of the n-th `ValidatePIN` call; the loop carries fuel so the
embedding is total. `PINRequest` yields `(response, "https://plex.tv/pin?pin="+code)`. -/

/-- The fields of a `PINResponse` that `RegisterWithPIN` uses. -/
structure PINResponse where
  id : Int
  code : String
  deriving DecidableEq, Repr

/-- The confirmation URL `PINRequest` hands to the callback. -/
def pinURL (code : String) : String := "https://plex.tv/pin?pin=" ++ code

/-- `cmp.Or(pollInterval, 15*time.Second)`: the default poll interval (ms)
when none is configured. -/
def effInterval (i : Nat) : Nat := if i = 0 then 15000 else i

/-- Outcome of the polling part of `RegisterWithPIN`: a token with its return
time and the number of polls made, or the context's cancellation error at its
return time, or the PIN-request failure, or fuel exhaustion. -/
inductive PINOutcome where
  | token (tok : TokenModel) (retTime polls : Nat)
  | cancelled (retTime polls : Nat)
  | reqFailed (msg : String)
  | diverged
  deriving DecidableEq, Repr

/-- The poll loop of `RegisterWithPIN`: at time `t`, the `k`-th `ValidatePIN`
call (outcome `poll k`) runs; a clean result with a valid token is returned
at once; otherwise the `select` returns the cancellation at the deadline `d`
when `d` is at most one interval away, else the timer fires and the loop
re-enters at `t + i`. -/
def pinPollLoop (valid : TokenModel → Bool)
    (poll : Nat → Except String TokenModel) (d i : Nat) :
    Nat → Nat → Nat → PINOutcome
  | 0, _t, _k => .diverged
  | fuel + 1, t, k =>
    let cont :=
      if d ≤ t then PINOutcome.cancelled t (k + 1)
      else if d ≤ t + i then PINOutcome.cancelled d (k + 1)
      else pinPollLoop valid poll d i fuel (t + i) (k + 1)
    match poll k with
    | .ok tok => if valid tok then .token tok t (k + 1) else cont
    | .error _ => cont

/-- Result of `RegisterWithPIN`: the loop outcome and the callback
invocations (argument list). -/
structure PINRegResult where
  outcome : PINOutcome
  callbackCalls : List (PINResponse × String)
  deriving DecidableEq, Repr

/-- `Config.RegisterWithPIN`: request a PIN (`pinReq` its outcome), invoke the
callback once with the response and confirmation URL, then poll from time 0. -/
def registerWithPIN (valid : TokenModel → Bool)
    (poll : Nat → Except String TokenModel) (pinReq : Except String PINResponse)
    (d pollInterval fuel : Nat) : PINRegResult :=
  match pinReq with
  | .error m => ⟨.reqFailed ("pin: " ++ m), []⟩
  | .ok r =>
    ⟨pinPollLoop valid poll d (effInterval pollInterval) fuel 0 0,
      [(r, pinURL r.code)]⟩

theorem pinPollLoop_cancelled (valid : TokenModel → Bool)
    (poll : Nat → Except String TokenModel) (d i : Nat)
    (hbad : ∀ k tok, poll k = .ok tok → valid tok = false) :
    ∀ fuel t k, t < d → d - t ≤ fuel * i →
      ∃ p, pinPollLoop valid poll d i fuel t k = .cancelled d p := by
  intro fuel
  induction fuel with
  | zero => intro t k ht hf; omega
  | succ fuel ih =>
    intro t k ht hf
    have hcont : ∃ p,
        (if d ≤ t then PINOutcome.cancelled t (k + 1)
         else if d ≤ t + i then PINOutcome.cancelled d (k + 1)
         else pinPollLoop valid poll d i fuel (t + i) (k + 1))
          = .cancelled d p := by
      rw [if_neg (by omega)]
      by_cases hi : d ≤ t + i
      · exact ⟨k + 1, if_pos hi⟩
      · rw [if_neg hi]
        exact ih (t + i) (k + 1) (by omega) (by
          have hm : (fuel + 1) * i = fuel * i + i := by ring
          omega)
    obtain ⟨p, hp⟩ := hcont
    refine ⟨p, ?_⟩
    unfold pinPollLoop
    rcases hpk : poll k with m | tok
    · simpa using hp
    · have hv := hbad k tok hpk
      simpa [hv] using hp

theorem pinPollLoop_first_valid (valid : TokenModel → Bool)
    (poll : Nat → Except String TokenModel) (d i : Nat) :
    ∀ k fuel t j, (∀ m tok, m < k → poll (j + m) = .ok tok → valid tok = false) →
      (∀ tok, poll (j + k) = .ok tok → valid tok = true) →
      (∃ tok, poll (j + k) = .ok tok) →
      t + k * i < d → k < fuel →
      ∃ tok, poll (j + k) = .ok tok ∧
        pinPollLoop valid poll d i fuel t j = .token tok (t + k * i) (j + k + 1) := by
  intro k
  induction k with
  | zero =>
    intro fuel t j _hbad hvk hex _hd hfuel
    obtain ⟨tok, htok⟩ := hex
    obtain ⟨fuel, rfl⟩ : ∃ f, fuel = f + 1 := ⟨fuel - 1, by omega⟩
    have htok0 : poll j = .ok tok := by simpa using htok
    have hv0 : valid tok = true := hvk tok htok
    refine ⟨tok, htok, ?_⟩
    show pinPollLoop valid poll d i (fuel + 1) t j = _
    unfold pinPollLoop
    simp [htok0, hv0]
  | succ k ih =>
    intro fuel t j hbad hvk hex hd hfuel
    obtain ⟨fuel, rfl⟩ : ∃ f, fuel = f + 1 := ⟨fuel - 1, by omega⟩
    have hmul : (k + 1) * i = k * i + i := by ring
    have step : pinPollLoop valid poll d i (fuel + 1) t j
        = pinPollLoop valid poll d i fuel (t + i) (j + 1) := by
      have hto : ¬ d ≤ t := by omega
      have hti : ¬ d ≤ t + i := by omega
      conv_lhs => rw [pinPollLoop]
      rcases hpj : poll j with m | tok
      · simp [hpj, hto, hti]
      · have hv := hbad 0 tok (by omega) (by simpa using hpj)
        simp [hpj, hv, hto, hti]
    rw [step]
    have harg : ∀ m tok, m < k → poll (j + 1 + m) = .ok tok →
        valid tok = false := by
      intro m tok hm hpm
      exact hbad (m + 1) tok (by omega) (by
        have hidx : j + (m + 1) = j + 1 + m := by omega
        rw [hidx]; exact hpm)
    have hj1 : j + 1 + k = j + (k + 1) := by omega
    obtain ⟨tok, htok, hloop⟩ := ih fuel (t + i) (j + 1)
      harg (by rw [hj1]; exact hvk) (by rw [hj1]; exact hex)
      (by omega) (by omega)
    refine ⟨tok, by rw [← hj1]; exact htok, ?_⟩
    rw [hloop]
    have harith : t + i + k * i = t + (k + 1) * i := by ring
    have hcount : j + 1 + k + 1 = j + (k + 1) + 1 := by omega
    rw [harith, hcount]

/-- **C9** — `RegisterWithPIN` invokes the callback exactly once with the PIN
response and confirmation URL (and not at all when the PIN request fails);
with a PIN that is never confirmed it returns the cancellation error exactly
at the deadline (no token), having polled at the configured interval; and it
returns the token of the first poll that yields a valid token, at that poll's
time. -/
theorem registerWithPIN_spec (valid : TokenModel → Bool)
    (poll : Nat → Except String TokenModel) (r : PINResponse)
    (d pollInterval fuel : Nat) (k : Nat) :
    (∀ m, registerWithPIN valid poll (.error m) d pollInterval fuel
      = ⟨.reqFailed ("pin: " ++ m), []⟩) ∧
    (registerWithPIN valid poll (.ok r) d pollInterval fuel).callbackCalls
      = [(r, pinURL r.code)] ∧
    ((∀ j tok, poll j = .ok tok → valid tok = false) → 0 < d →
      d ≤ fuel * effInterval pollInterval →
      ∃ p, (registerWithPIN valid poll (.ok r) d pollInterval fuel).outcome
        = .cancelled d p) ∧
    ((∀ m tok, m < k → poll m = .ok tok → valid tok = false) →
      (∀ tok, poll k = .ok tok → valid tok = true) →
      (∃ tok, poll k = .ok tok) →
      k * effInterval pollInterval < d → k < fuel →
      ∃ tok, poll k = .ok tok ∧
        (registerWithPIN valid poll (.ok r) d pollInterval fuel).outcome
          = .token tok (k * effInterval pollInterval) (k + 1)) := by
  refine ⟨fun m => rfl, rfl, ?_, ?_⟩
  · intro hbad hd hfuel
    exact pinPollLoop_cancelled valid poll d (effInterval pollInterval) hbad
      fuel 0 0 hd (by omega)
  · intro hbad hvk hex hd hfuel
    have h := pinPollLoop_first_valid valid poll d (effInterval pollInterval)
      k fuel 0 0 (by simpa using hbad) (by simpa using hvk)
      (by simpa using hex) (by omega) hfuel
    simpa [registerWithPIN] using h

theorem registerWithPIN_spec_witness :
    (∀ m, registerWithPIN (fun _tok : TokenModel => true)
        (fun _n : Nat => (.error "pending" : Except String TokenModel))
        (.error m) 500 100 10 = ⟨.reqFailed ("pin: " ++ m), []⟩) ∧
    (registerWithPIN (fun _tok : TokenModel => true)
        (fun _n : Nat => (.error "pending" : Except String TokenModel))
        (.ok ⟨42, "1234"⟩) 500 100 10).callbackCalls
      = [(⟨42, "1234"⟩, pinURL "1234")] ∧
    ((∀ j tok,
        (fun _n : Nat => (.error "pending" : Except String TokenModel)) j
          = .ok tok →
        (fun _tok : TokenModel => true) tok = false) →
      0 < 500 → 500 ≤ 10 * effInterval 100 →
      ∃ p, (registerWithPIN (fun _tok : TokenModel => true)
        (fun _n : Nat => (.error "pending" : Except String TokenModel))
        (.ok ⟨42, "1234"⟩) 500 100 10).outcome = .cancelled 500 p) ∧
    ((∀ m tok, m < 0 →
        (fun _n : Nat => (.error "pending" : Except String TokenModel)) m
          = .ok tok →
        (fun _tok : TokenModel => true) tok = false) →
      (∀ tok,
        (fun _n : Nat => (.error "pending" : Except String TokenModel)) 0
          = .ok tok →
        (fun _tok : TokenModel => true) tok = true) →
      (∃ tok,
        (fun _n : Nat => (.error "pending" : Except String TokenModel)) 0
          = .ok tok) →
      0 * effInterval 100 < 500 → 0 < 10 →
      ∃ tok,
        (fun _n : Nat => (.error "pending" : Except String TokenModel)) 0
          = .ok tok ∧
        (registerWithPIN (fun _tok : TokenModel => true)
          (fun _n : Nat => (.error "pending" : Except String TokenModel))
          (.ok ⟨42, "1234"⟩) 500 100 10).outcome
          = .token tok (0 * effInterval 100) (0 + 1)) :=
  registerWithPIN_spec (fun _tok : TokenModel => true)
    (fun _n : Nat => (.error "pending" : Except String TokenModel))
    ⟨42, "1234"⟩ 500 100 10 0

end Mediaclients
